import Mathlib

/-!
Verification development for the hotspot payment backend.

The repository contains several server variants:
* `server.js` part 1 (lines 1-744): callback route `/api/mpesa_callback` with
  `upsert: true`, normalizer variant 1 (lines 174-201).
* `server.js` part 2 (lines 745-1430): callback route `/api/callback` with
  `upsert: false` and `expiresAt` computation, normalizer variant 2 (lines
  892-898), status route `/api/check_payment_status/:checkoutRequestID`,
  entitlement route `/api/mikrotik/check_payment`.
* `server.js` part 3 (lines 1431-2129): callback route `/api/mpesa_callback`
  with `upsert: true`, normalizer variant 3 (lines 1605-1617).
* `unnamed/part_000`: callback route `/api/mpesa_callback/` that responds only
  after database processing and creates a record when no match exists.

Strings are modelled through their character lists; times are integer
milliseconds since the epoch (JavaScript `Date.now()` granularity).
-/

/-- JavaScript `String.prototype.trim`: surrounding whitespace removed. -/
def jsTrim (l : List Char) : List Char :=
  ((l.dropWhile Char.isWhitespace).reverse.dropWhile Char.isWhitespace).reverse

/-- Does `l` start with the pattern `p`? (JS `startsWith` on char lists.) -/
def startsWithChars : List Char → List Char → Bool
  | _, [] => true
  | [], _ :: _ => false
  | a :: l, b :: p => a == b && startsWithChars l p

/-- JS `String.prototype.includes`: `p` occurs as a contiguous substring. -/
def containsChars (p : List Char) : List Char → Bool
  | [] => startsWithChars [] p
  | a :: t => startsWithChars (a :: t) p || containsChars p t

/-- JS `includes` lifted to `String`. -/
def strIncludes (s pat : String) : Bool := containsChars pat.data s.data

/-- JS `toLowerCase` (the plan labels are ASCII). -/
def strToLower (s : String) : String := String.mk (s.data.map Char.toLower)

/-- Regex `/^0(1|7)\d{8}$/` from normalizer variants 2 and 3. -/
def matches07 (l : List Char) : Bool :=
  l.head? == some '0' && (l.get? 1 == some '1' || l.get? 1 == some '7')
    && l.length == 10 && (l.drop 2).all Char.isDigit

/-- Regex `/^254(1|7)\d{8}$/` from normalizer variant 2. -/
def matches254 (l : List Char) : Bool :=
  l.head? == some '2' && l.get? 1 == some '5' && l.get? 2 == some '4'
    && (l.get? 3 == some '1' || l.get? 3 == some '7')
    && l.length == 12 && (l.drop 4).all Char.isDigit

/-- Regex `/^2547[0-9]{8}$/` from normalizer variant 1. -/
def matches2547 (l : List Char) : Bool :=
  l.head? == some '2' && l.get? 1 == some '5' && l.get? 2 == some '4'
    && l.get? 3 == some '7' && l.length == 12 && (l.drop 4).all Char.isDigit

/-- Combined test `/^(0(1|7)\d{8}|254(1|7)\d{8})$/` of normalizer variant 2. -/
def kenyanPhoneTest (l : List Char) : Bool := matches07 l || matches254 l

/-- Normalizer variant 2 (`server.js` lines 892-898), char-list core: regex
test on the trimmed input, then `"254" + phone.substring(1)` when the string
starts with `"0"`. -/
def norm2chars (l : List Char) : Option (List Char) :=
  if kenyanPhoneTest l then
    if l.head? == some '0' then some ('2' :: '5' :: '4' :: l.tail) else some l
  else none

/-- `normalizePhoneNumber`, variant 2 (`server.js` lines 892-898). -/
def normalizePhoneNumber2 (s : String) : Option String :=
  (norm2chars (jsTrim s.data)).map String.mk

/-- Normalizer variant 3 (`server.js` lines 1605-1617), char-list core: only
`/^(0(1|7)\d{8})$/` is accepted; a leading `"0"` is replaced by `"254"`. -/
def norm3chars (l : List Char) : Option (List Char) :=
  if matches07 l then
    if l.head? == some '0' then some ('2' :: '5' :: '4' :: l.tail) else some l
  else none

/-- `normalizePhoneNumber`, variant 3 (`server.js` lines 1605-1617). -/
def normalizePhoneNumber3 (s : String) : Option String :=
  (norm3chars (jsTrim s.data)).map String.mk

/-- Normalizer variant 1 (`server.js` lines 174-201), char-list core: the
length precheck runs before the leading `+` is stripped; `"07"`-prefixed
numbers are rewritten, 8-character `"01"` strings are rewritten, and the final
test is `/^2547[0-9]{8}$/`. -/
def norm1chars (l0 : List Char) : Option (List Char) :=
  if l0.length < 9 || l0.length > 12 then none
  else
    let l1 := if startsWithChars l0 ['+'] then l0.tail else l0
    let l2 :=
      if startsWithChars l1 ['0', '7'] then '2' :: '5' :: '4' :: l1.tail
      else if l1.length == 8 && startsWithChars l1 ['0', '1'] then
        '2' :: '5' :: '4' :: l1.tail
      else l1
    if matches2547 l2 then some l2 else none

/-- `normalizePhoneNumber`, variant 1 (`server.js` lines 174-201). -/
def normalizePhoneNumber1 (s : String) : Option String :=
  (norm1chars (jsTrim s.data)).map String.mk

/-- Status enum of the `Payment` mongoose schema (`server.js` lines 106-117). -/
inductive PayStatus
  | Pending
  | Processing
  | Completed
  | Failed
  | Cancelled
  | Timeout
deriving DecidableEq, Repr

/-- Arguments of the `Date.UTC(year, month, day, hour, minute, second)` call
built from an M-Pesa `TransactionDate` string; `month` is the already
0-indexed value `substring(4,6) - 1`. The `Date.UTC` calendar arithmetic
itself is not needed by any claim and is kept in argument form. -/
structure MpesaDate where
  year : Int
  month : Int
  day : Int
  hour : Int
  minute : Int
  second : Int
deriving DecidableEq, Repr

/-- A JSON value found in a `CallbackMetadata.Item` entry. -/
inductive MetaValue
  | num (n : Int)
  | str (s : String)
deriving DecidableEq, Repr

/-- One `{Name, Value}` entry of `CallbackMetadata.Item`. -/
structure MetaItem where
  name : String
  value : MetaValue
deriving DecidableEq, Repr

/-- The `Body.stkCallback` envelope of an M-Pesa confirmation webhook. -/
structure StkCallback where
  merchantRequestID : String
  checkoutRequestID : String
  resultCode : Int
  resultDesc : Option String := none
  callbackMetadata : Option (List MetaItem) := none
deriving DecidableEq, Repr

/-- A document of the `Payment` collection. Field superset of the three
`server.js` schema variants: `packageDescription` and `expiresAt` exist only
in the part-2 schema (lines 815-857) and simply stay `none` elsewhere.
`createdAt` is the mongoose `timestamps` creation instant in milliseconds. -/
structure PaymentRecord where
  merchantRequestID : Option String := none
  checkoutRequestID : Option String := none
  resultCode : Option Int := none
  resultDesc : Option String := none
  amount : Option Int := none
  mpesaReceiptNumber : Option String := none
  transactionDate : Option MpesaDate := none
  phoneNumber : Option String := none
  packageDescription : Option String := none
  status : PayStatus := PayStatus.Pending
  rawCallbackData : Option StkCallback := none
  expiresAt : Option Int := none
  createdAt : Int := 0
deriving DecidableEq, Repr

/-- A document of the `unnamed/part_000` `Payment` schema (lines 36-47):
`status` is a free string there (no enum) and `TransactionDate` is stored as
the raw string value. -/
structure P0Record where
  merchantRequestID : String
  checkoutRequestID : String
  resultCode : Option Int := none
  resultDesc : Option String := none
  amount : Option Int := none
  mpesaReceiptNumber : Option String := none
  transactionDate : Option String := none
  phoneNumber : Option String := none
  status : String := "Pending"
deriving DecidableEq, Repr

/-- The `updateFields` object assembled by the callback handlers before the
`findOneAndUpdate` call. A `none` field is absent from the update document.
`packageDescription` is listed because `server.js` line 1091 reads
`updateFields.packageDescription || ""`; no handler ever assigns it, so it is
always `none`, exactly as the JS property is always `undefined`. -/
structure UpdateFields where
  resultCode : Option Int := none
  resultDesc : Option String := none
  rawCallbackData : Option StkCallback := none
  status : Option PayStatus := none
  amount : Option Int := none
  mpesaReceiptNumber : Option String := none
  transactionDate : Option MpesaDate := none
  phoneNumber : Option String := none
  packageDescription : Option String := none
  expiresAt : Option Int := none
deriving DecidableEq, Repr

/-- `$set` semantics for one optional field: the update value wins when
present, otherwise the stored value is kept. -/
def ovr {α : Type} (u old : Option α) : Option α :=
  match u with
  | some v => some v
  | none => old

/-- MongoDB `$set` of an `updateFields` document on a stored record. -/
def applySet (uf : UpdateFields) (r : PaymentRecord) : PaymentRecord :=
  { r with
    resultCode := ovr uf.resultCode r.resultCode
    resultDesc := ovr uf.resultDesc r.resultDesc
    rawCallbackData := ovr uf.rawCallbackData r.rawCallbackData
    status := uf.status.getD r.status
    amount := ovr uf.amount r.amount
    mpesaReceiptNumber := ovr uf.mpesaReceiptNumber r.mpesaReceiptNumber
    transactionDate := ovr uf.transactionDate r.transactionDate
    phoneNumber := ovr uf.phoneNumber r.phoneNumber
    packageDescription := ovr uf.packageDescription r.packageDescription
    expiresAt := ovr uf.expiresAt r.expiresAt }

/-- Numeric value of a digit string (the implicit JS string-to-number
coercion in `dateString.substring(4,6) - 1`). -/
def digitsToInt (l : List Char) : Int :=
  l.foldl (fun a c => a * 10 + (Int.ofNat c.toNat - 48)) 0

/-- The `TransactionDate` parse of the callback handlers: only strings of
length 14 are converted (`YYYYMMDDHHmmss`), month made 0-indexed. -/
def parseMpesaDate (s : String) : Option MpesaDate :=
  let l := s.data
  if l.length == 14 then
    some { year := digitsToInt (l.take 4)
           month := digitsToInt ((l.drop 4).take 2) - 1
           day := digitsToInt ((l.drop 6).take 2)
           hour := digitsToInt ((l.drop 8).take 2)
           minute := digitsToInt ((l.drop 10).take 2)
           second := digitsToInt ((l.drop 12).take 2) }
  else none

/-- One iteration of the `callbackMetadata.Item.forEach` loop shared by the
`/api/callback` and `/api/mpesa_callback` handlers: `Amount`,
`MpesaReceiptNumber`, `TransactionDate` (when a 14-character string) and
`PhoneNumber` are copied into `updateFields`. Number values for the string
fields are stored through mongoose string casting. -/
def applyMetaItem (uf : UpdateFields) (it : MetaItem) : UpdateFields :=
  let uf1 :=
    if it.name == "Amount" then
      match it.value with
      | MetaValue.num n => { uf with amount := some n }
      | MetaValue.str _ => uf
    else uf
  let uf2 :=
    if it.name == "MpesaReceiptNumber" then
      match it.value with
      | MetaValue.str s => { uf1 with mpesaReceiptNumber := some s }
      | MetaValue.num n => { uf1 with mpesaReceiptNumber := some (toString n) }
    else uf1
  let uf3 :=
    if it.name == "TransactionDate" then
      match it.value with
      | MetaValue.str s =>
        match parseMpesaDate s with
        | some d => { uf2 with transactionDate := some d }
        | none => uf2
      | MetaValue.num _ => uf2
    else uf2
  if it.name == "PhoneNumber" then
    match it.value with
    | MetaValue.str s => { uf3 with phoneNumber := some s }
    | MetaValue.num n => { uf3 with phoneNumber := some (toString n) }
  else uf3

/-- The whole `forEach` over `CallbackMetadata.Item`. -/
def applyMetadata (uf : UpdateFields) (items : List MetaItem) : UpdateFields :=
  items.foldl applyMetaItem uf

/-- The `durationHours` computation of `server.js` lines 1090-1096 (also
lines 1292-1300): an if/else chain over substring matches, then an
unconditional override to 24 when the lowercased text contains
`"unlimited"`. -/
def durationHours (desc : String) : Int :=
  let base : Int :=
    if strIncludes desc "3-Hour" then 3
    else if strIncludes desc "7-Hour" then 7
    else if strIncludes desc "14-Hour" then 14
    else if strIncludes desc "24-Hour" then 24
    else 1
  if strIncludes (strToLower desc) "unlimited" then 24 else base

/-- The `$or` correlation query of the callback handlers: match by
`CheckoutRequestID` or `MerchantRequestID`. -/
def matchesKey (cb : StkCallback) (r : PaymentRecord) : Bool :=
  r.checkoutRequestID == some cb.checkoutRequestID
    || r.merchantRequestID == some cb.merchantRequestID

/-- `Collection.findOneAndUpdate` on a list store: the first matching
document is updated in place; with `upsert` a fresh document is inserted when
nothing matches. -/
def findOneAndUpdateList {α : Type} (q : α → Bool) (upd : α → α) (upsert : Bool)
    (newDoc : α) : List α → List α
  | [] => if upsert then [newDoc] else []
  | r :: rs =>
    if q r then upd r :: rs
    else r :: findOneAndUpdateList q upd upsert newDoc rs

/-- The `updateFields` built by `/api/callback` (`server.js` lines 1057-1099)
for a successful confirmation (`resultCode === 0`): result fields, status
`Completed`, metadata copy, then `expiresAt = Date.now() + durationHours *
60 * 60 * 1000` where `durationHours` is computed from
`updateFields.packageDescription || ""` (line 1091) - a property the handler
never assigns. -/
def callbackUpdateFields (now : Int) (cb : StkCallback) : UpdateFields :=
  let uf : UpdateFields :=
    { resultCode := some cb.resultCode
      resultDesc := some (cb.resultDesc.getD "No specific description provided.")
      rawCallbackData := some cb
      status := some PayStatus.Completed }
  let uf :=
    match cb.callbackMetadata with
    | some items => applyMetadata uf items
    | none => uf
  let desc := uf.packageDescription.getD ""
  let dh := durationHours desc
  { uf with expiresAt := some (now + dh * 3600000) }

/-- Phase B of `/api/callback` (`server.js` lines 1043-1139): on
`resultCode === 0` a `findOneAndUpdate` with `upsert: false` against the
`$or` correlation query; on any other result code the handler only logs and
touches nothing. -/
def processCallbackV2 (now : Int) (db : List PaymentRecord) (cb : StkCallback) :
    List PaymentRecord :=
  if cb.resultCode == 0 then
    let uf := callbackUpdateFields now cb
    findOneAndUpdateList (matchesKey cb) (applySet uf) false {} db
  else db

/-- The `updateFields` built by `/api/mpesa_callback` (`server.js` lines
1858-1893): result fields always; on success status `Completed` plus
metadata; otherwise `Cancelled` for result code 1032 and `Failed` for
everything else. -/
def mpesaCallbackUpdateFields (cb : StkCallback) : UpdateFields :=
  let uf : UpdateFields :=
    { resultCode := some cb.resultCode
      resultDesc := some (cb.resultDesc.getD "No specific description provided.")
      rawCallbackData := some cb }
  if cb.resultCode == 0 then
    let uf := { uf with status := some PayStatus.Completed }
    match cb.callbackMetadata with
    | some items => applyMetadata uf items
    | none => uf
  else
    { uf with status := some (if cb.resultCode == 1032 then PayStatus.Cancelled
        else PayStatus.Failed) }

/-- Phase B of `/api/mpesa_callback` (`server.js` lines 1895-1906):
`findOneAndUpdate` with `upsert: true`. MongoDB does not copy `$or` equality
conditions into an upserted document, so the inserted record carries only the
`$set` fields over schema defaults; mongoose `timestamps` stamps its
`createdAt` with the current time. -/
def processMpesaCallbackV3 (now : Int) (db : List PaymentRecord)
    (cb : StkCallback) : List PaymentRecord :=
  let uf := mpesaCallbackUpdateFields cb
  findOneAndUpdateList (matchesKey cb) (applySet uf) true
    (applySet uf { createdAt := now }) db

/-- The `$or` correlation query of `unnamed/part_000` (lines 196-201). -/
def p0MatchesKey (cb : StkCallback) (r : P0Record) : Bool :=
  r.checkoutRequestID == cb.checkoutRequestID
    || r.merchantRequestID == cb.merchantRequestID

/-- One iteration of the metadata `forEach` of `unnamed/part_000` (lines
211-218 and 243-251): `TransactionDate` is stored as the raw value. -/
def p0ApplyMetaItem (r : P0Record) (it : MetaItem) : P0Record :=
  let r1 :=
    if it.name == "Amount" then
      match it.value with
      | MetaValue.num n => { r with amount := some n }
      | MetaValue.str _ => r
    else r
  let r2 :=
    if it.name == "MpesaReceiptNumber" then
      match it.value with
      | MetaValue.str s => { r1 with mpesaReceiptNumber := some s }
      | MetaValue.num n => { r1 with mpesaReceiptNumber := some (toString n) }
    else r1
  let r3 :=
    if it.name == "TransactionDate" then
      match it.value with
      | MetaValue.str s => { r2 with transactionDate := some s }
      | MetaValue.num n => { r2 with transactionDate := some (toString n) }
    else r2
  if it.name == "PhoneNumber" then
    match it.value with
    | MetaValue.str s => { r3 with phoneNumber := some s }
    | MetaValue.num n => { r3 with phoneNumber := some (toString n) }
  else r3

/-- Mutation applied by `unnamed/part_000` to a found record (lines 203-224):
result fields, then `Completed` plus metadata on success, `Failed`
otherwise. -/
def p0ApplyCallback (cb : StkCallback) (r : P0Record) : P0Record :=
  let r := { r with resultCode := some cb.resultCode, resultDesc := cb.resultDesc }
  if cb.resultCode == 0 then
    let r := { r with status := "Completed" }
    match cb.callbackMetadata with
    | some items => items.foldl p0ApplyMetaItem r
    | none => r
  else
    { r with status := "Failed" }

/-- The `new Payment(...)` created by `unnamed/part_000` when no record
matches (lines 228-254): both correlation IDs are set explicitly and the
status is `Completed` on success, `Failed` otherwise. -/
def p0NewPayment (cb : StkCallback) : P0Record :=
  let np : P0Record :=
    { merchantRequestID := cb.merchantRequestID
      checkoutRequestID := cb.checkoutRequestID
      resultCode := some cb.resultCode
      resultDesc := cb.resultDesc
      status := if cb.resultCode == 0 then "Completed" else "Failed" }
  if cb.resultCode == 0 then
    match cb.callbackMetadata with
    | some items => items.foldl p0ApplyMetaItem np
    | none => np
  else np

/-- Store effect of `unnamed/part_000`'s `/api/mpesa_callback/` (lines
177-267): update the first match, create a new keyed record otherwise. -/
def processMpesaCallbackP0 (db : List P0Record) (cb : StkCallback) :
    List P0Record :=
  findOneAndUpdateList (p0MatchesKey cb) (p0ApplyCallback cb) true
    (p0NewPayment cb) db

/-- Response of `/api/check_payment_status/:checkoutRequestID` (`server.js`
lines 1143-1184). -/
structure StatusResponse where
  httpStatus : Nat
  success : Bool
  status : String
  message : String
deriving DecidableEq, Repr

/-- String form of a stored status (the mongoose enum values). -/
def statusString : PayStatus → String
  | PayStatus.Pending => "Pending"
  | PayStatus.Processing => "Processing"
  | PayStatus.Completed => "Completed"
  | PayStatus.Failed => "Failed"
  | PayStatus.Cancelled => "Cancelled"
  | PayStatus.Timeout => "Timeout"

/-- An error given to the centralized error middleware: either an `APIError`
with its status code, or a generic runtime error such as the `TypeError`
raised by reading a property of `undefined`. (The mongoose
ValidationError/CastError branches are not reachable from the modelled
routes.) -/
inductive ThrownError
  | api (message : String) (statusCode : Nat)
  | typeError (message : String)
deriving DecidableEq, Repr

/-- The JSON error envelope produced by the middleware. -/
structure ErrorEnvelope where
  httpStatus : Nat
  success : Bool
  message : String
deriving DecidableEq, Repr

/-- Envelope for a non-`APIError` exception (`server.js` lines 1363-1386):
status 500 and the generic message. -/
def genericEnvelope : ErrorEnvelope :=
  { httpStatus := 500
    success := false
    message := "An internal server error occurred. Please try again later." }

/-- The centralized error middleware (`server.js` lines 1351-1387). -/
def errorMiddleware : ThrownError → ErrorEnvelope
  | ThrownError.api m s => { httpStatus := s, success := false, message := m }
  | ThrownError.typeError _ => genericEnvelope

/-- `GET /api/check_payment_status/:checkoutRequestID` (`server.js` lines
1143-1184): a missing record is answered 200/`Processing`, a found record is
answered with its status and the matching message. -/
def checkPaymentStatus (db : List PaymentRecord) (cid : String) :
    Except ThrownError StatusResponse :=
  if cid == "" then Except.error (ThrownError.api "CheckoutRequestID is required." 400)
  else
    match db.find? (fun r => r.checkoutRequestID == some cid) with
    | none =>
      Except.ok { httpStatus := 200, success := true, status := "Processing"
                  message := "Payment record not found. Awaiting callback." }
    | some payment =>
      let msg :=
        if payment.status == PayStatus.Completed then
          "Your payment was successful. Kindly wait for service fulfillment."
        else if payment.status == PayStatus.Cancelled then
          "You cancelled the M-Pesa payment prompt."
        else if payment.status == PayStatus.Failed then
          "The M-Pesa payment failed. Please try again."
        else if payment.status == PayStatus.Timeout then
          "The M-Pesa payment timed out. Please try again."
        else "Status is pending."
      Except.ok { httpStatus := 200, success := true
                  status := statusString payment.status, message := msg }

/-- Pick the record with the later `createdAt`; on a tie the accumulator (the
earlier list element) is kept. -/
def laterCreated (a b : PaymentRecord) : PaymentRecord :=
  if a.createdAt < b.createdAt then b else a

/-- Filter predicate of the entitlement query (`server.js` lines 1286-1289):
`{PhoneNumber: normalizedPhone, status: "Completed"}`. -/
def completedFor (p : String) (r : PaymentRecord) : Bool :=
  r.phoneNumber == some p && r.status == PayStatus.Completed

/-- `findOne(...).sort({createdAt: -1})`: the most recently created matching
record, if any. -/
def mostRecentCompleted (db : List PaymentRecord) (p : String) :
    Option PaymentRecord :=
  match db.filter (completedFor p) with
  | [] => none
  | r :: rs => some (rs.foldl laterCreated r)

/-- The `bandwidth` computation of `server.js` lines 1309-1317. -/
def bandwidthOf (desc : String) : String :=
  if strIncludes (strToLower desc) "unlimited" then "unlimited"
  else if strIncludes (strToLower desc) "3mbps" || strIncludes (strToLower desc) "vybz" then
    "3mbps"
  else "default"

/-- Outcome of `GET /api/mikrotik/check_payment` (`server.js` lines
1272-1343). `thrown` is the uncaught `TypeError` from
`payment.packageDescription.includes(...)` when the stored record has no
`packageDescription`; it reaches the error middleware via `next(error)`. -/
inductive MikrotikResult
  | badRequest (message : String)
  | thrown
  | paid (amount : Option Int) (plan : String) (bandwidth : String)
      (paidAt : Int) (expiresAt : Int) (receipt : Option String)
  | expired
  | notPaid
deriving DecidableEq, Repr

/-- `GET /api/mikrotik/check_payment` (`server.js` lines 1272-1343). The
query parameter is `none` when absent; the JS `if (!phone)` check also
catches the empty string. `expiresAt` falls back to
`createdAt + durationHours * 60 * 60 * 1000` when the record has none. -/
def mikrotikCheckPayment (now : Int) (db : List PaymentRecord)
    (phone : Option String) : MikrotikResult :=
  match phone with
  | none => MikrotikResult.badRequest "Phone number is required."
  | some ph =>
    if ph == "" then MikrotikResult.badRequest "Phone number is required."
    else
      match normalizePhoneNumber2 ph with
      | none => MikrotikResult.badRequest "Invalid phone number format."
      | some p =>
        match mostRecentCompleted db p with
        | none => MikrotikResult.notPaid
        | some payment =>
          match payment.packageDescription with
          | none => MikrotikResult.thrown
          | some desc =>
            let dh := durationHours desc
            let expiresAt := payment.expiresAt.getD (payment.createdAt + dh * 3600000)
            let bw := bandwidthOf desc
            if now < expiresAt then
              MikrotikResult.paid payment.amount desc bw payment.createdAt
                expiresAt payment.mpesaReceiptNumber
            else MikrotikResult.expired

/-- An externally observable event of a webhook request: an HTTP response
(status code and body marker) or an access to the payment store. -/
inductive WebEvent
  | respond (status : Nat) (body : String)
  | dbAccess
deriving DecidableEq, Repr

/-- Body marker of the fixed acknowledgment `{MpesaResponse: "Callback
received"}`. -/
def mpesaAckBody : String := "MpesaResponse: Callback received"

/-- Event trace of `POST /api/callback` (`server.js` lines 1035-1140): the
fixed 200 acknowledgment is sent first; the envelope check and the single
`findOneAndUpdate` run inside `setImmediate`, and the surrounding
`try/catch` swallows a store failure, so nothing further is sent either
way. -/
def callbackV2Trace (body : Option StkCallback) (storeOk : Bool) :
    List WebEvent :=
  WebEvent.respond 200 mpesaAckBody ::
    match body with
    | none => []
    | some _ => if storeOk then [WebEvent.dbAccess] else [WebEvent.dbAccess]

/-- Event trace of `POST /api/mpesa_callback` (`server.js` lines 1840-1939):
identical phase structure to `/api/callback`. -/
def mpesaCallbackV3Trace (body : Option StkCallback) (storeOk : Bool) :
    List WebEvent :=
  WebEvent.respond 200 mpesaAckBody ::
    match body with
    | none => []
    | some _ => if storeOk then [WebEvent.dbAccess] else [WebEvent.dbAccess]

/-- Event trace of `unnamed/part_000`'s `POST /api/mpesa_callback/` (lines
177-267): a malformed envelope is answered 400 immediately; otherwise the
handler performs `findOne` and `save` against the store and only then
responds 200, or responds 500 when the store fails. -/
def mpesaCallbackP0Trace (body : Option StkCallback) (storeOk : Bool) :
    List WebEvent :=
  match body with
  | none => [WebEvent.respond 400 "Invalid callback data."]
  | some _ =>
    if storeOk then
      [WebEvent.dbAccess, WebEvent.dbAccess,
        WebEvent.respond 200 "Callback received successfully."]
    else
      [WebEvent.dbAccess,
        WebEvent.respond 500 "Internal server error during callback processing."]

/-- The HTTP responses contained in a trace. -/
def respondEvents (tr : List WebEvent) : List WebEvent :=
  tr.filter (fun e => match e with
    | WebEvent.respond _ _ => true
    | WebEvent.dbAccess => false)

theorem dropWhile_of_all_neg {p : Char → Bool} :
    ∀ l : List Char, (∀ c ∈ l, p c = false) → List.dropWhile p l = l
  | [], _ => rfl
  | c :: t, h => by
    simp [List.dropWhile, h c (List.mem_cons_self c t)]

theorem jsTrim_of_no_ws {l : List Char}
    (h : ∀ c ∈ l, Char.isWhitespace c = false) : jsTrim l = l := by
  unfold jsTrim
  rw [dropWhile_of_all_neg l h, dropWhile_of_all_neg l.reverse
    (fun c hc => h c (List.mem_reverse.mp hc)), List.reverse_reverse]

theorem dropWhile_append_singleton {p : Char → Bool} {c : Char}
    (hc : p c = false) :
    ∀ xs : List Char, List.dropWhile p (xs ++ [c]) = List.dropWhile p xs ++ [c]
  | [] => by simp [List.dropWhile, hc]
  | x :: xs => by
    by_cases hx : p x
    · simpa [List.dropWhile, hx] using dropWhile_append_singleton hc xs
    · simp [List.dropWhile, hx]

theorem jsTrim_cons_head {c : Char} (hc : Char.isWhitespace c = false)
    (l : List Char) :
    jsTrim (c :: l) = c :: (l.reverse.dropWhile Char.isWhitespace).reverse := by
  unfold jsTrim
  rw [show List.dropWhile Char.isWhitespace (c :: l) = c :: l by
    simp [List.dropWhile, hc]]
  rw [List.reverse_cons, dropWhile_append_singleton hc, List.reverse_append]
  simp

theorem digit_not_ws {c : Char} (h : c.isDigit = true) :
    c.isWhitespace = false := by
  cases hw : c.isWhitespace
  · rfl
  · exfalso
    unfold Char.isWhitespace at hw
    simp only [Bool.or_eq_true, decide_eq_true_eq] at hw
    rcases hw with ((rfl | rfl) | rfl) | rfl <;> exact absurd h (by decide)

theorem matches07_shape {l : List Char} (h : matches07 l = true) :
    ∃ c rest, l = '0' :: c :: rest ∧ (c = '1' ∨ c = '7') ∧ rest.length = 8 ∧
      rest.all Char.isDigit = true := by
  match l with
  | [] => simp [matches07] at h
  | [a] => simp [matches07] at h
  | a :: b :: t =>
    simp only [matches07, List.head?, List.get?, Bool.and_eq_true, Bool.or_eq_true,
      beq_iff_eq, Option.some.injEq, List.length_cons, List.drop] at h
    obtain ⟨⟨⟨ha, hb⟩, hlen⟩, hdig⟩ := h
    subst ha
    exact ⟨b, t, rfl, hb, by omega, by simpa using hdig⟩

theorem matches254_shape {l : List Char} (h : matches254 l = true) :
    ∃ c rest, l = '2' :: '5' :: '4' :: c :: rest ∧ (c = '1' ∨ c = '7') ∧
      rest.length = 8 ∧ rest.all Char.isDigit = true := by
  match l with
  | [] => simp [matches254] at h
  | [a] => simp [matches254] at h
  | [a, b] => simp [matches254] at h
  | [a, b, c] => simp [matches254] at h
  | a :: b :: c :: d :: t =>
    simp only [matches254, List.head?, List.get?, Bool.and_eq_true, Bool.or_eq_true,
      beq_iff_eq, Option.some.injEq, List.length_cons, List.drop] at h
    obtain ⟨⟨⟨⟨⟨ha, hb⟩, hc⟩, hd⟩, hlen⟩, hdig⟩ := h
    subst ha; subst hb; subst hc
    exact ⟨d, t, rfl, hd, by omega, by simpa using hdig⟩

theorem matches07_no_ws {l : List Char} (h : matches07 l = true) :
    ∀ c ∈ l, Char.isWhitespace c = false := by
  obtain ⟨c1, rest, rfl, hc1, _, hdig⟩ := matches07_shape h
  intro c hc
  rcases List.mem_cons.mp hc with rfl | hc
  · decide
  rcases List.mem_cons.mp hc with rfl | hc
  · rcases hc1 with rfl | rfl <;> decide
  · exact digit_not_ws (by simpa using List.all_eq_true.mp hdig c hc)

theorem matches254_no_ws {l : List Char} (h : matches254 l = true) :
    ∀ c ∈ l, Char.isWhitespace c = false := by
  obtain ⟨c3, rest, rfl, hc3, _, hdig⟩ := matches254_shape h
  intro c hc
  rcases List.mem_cons.mp hc with rfl | hc
  · decide
  rcases List.mem_cons.mp hc with rfl | hc
  · decide
  rcases List.mem_cons.mp hc with rfl | hc
  · decide
  rcases List.mem_cons.mp hc with rfl | hc
  · rcases hc3 with rfl | rfl <;> decide
  · exact digit_not_ws (by simpa using List.all_eq_true.mp hdig c hc)

theorem matches254_of_matches07 {l : List Char} (h : matches07 l = true) :
    matches254 ('2' :: '5' :: '4' :: l.tail) = true := by
  obtain ⟨c1, rest, rfl, hc1, hlen, hdig⟩ := matches07_shape h
  rcases hc1 with rfl | rfl <;>
    simp [matches254, List.head?, List.get?, List.length_cons, hlen, hdig]

theorem matches07_not_matches254 {l : List Char} (h : matches07 l = true) :
    matches254 l = false := by
  obtain ⟨c1, rest, rfl, _, _, _⟩ := matches07_shape h
  simp [matches254, List.head?]

theorem norm2chars_of_matches254 {l : List Char} (h : matches254 l = true) :
    norm2chars l = some l := by
  obtain ⟨c3, rest, hl, _, _, _⟩ := matches254_shape h
  rw [norm2chars, if_pos (by simp [kenyanPhoneTest, h]), if_neg (by simp [hl, List.head?])]

theorem findOneAndUpdateList_no_match {α : Type} (q : α → Bool) (upd : α → α)
    (d : α) : ∀ db : List α, (∀ r ∈ db, q r = false) →
      findOneAndUpdateList q upd false d db = db
  | [], _ => rfl
  | r :: rs, h => by
    simp [findOneAndUpdateList, h r (List.mem_cons_self r rs),
      findOneAndUpdateList_no_match q upd d rs
        (fun x hx => h x (List.mem_cons_of_mem r hx))]

theorem findOneAndUpdateList_no_match_upsert {α : Type} (q : α → Bool)
    (upd : α → α) (d : α) : ∀ db : List α, (∀ r ∈ db, q r = false) →
      findOneAndUpdateList q upd true d db = db ++ [d]
  | [], _ => rfl
  | r :: rs, h => by
    simp [findOneAndUpdateList, h r (List.mem_cons_self r rs),
      findOneAndUpdateList_no_match_upsert q upd d rs
        (fun x hx => h x (List.mem_cons_of_mem r hx))]

theorem findOneAndUpdateList_first_match {α : Type} (q : α → Bool)
    (upd : α → α) (u : Bool) (d : α) :
    ∀ (db : List α) (i : Nat) (r : α), db.get? i = some r → q r = true →
      (∀ j rj, j < i → db.get? j = some rj → q rj = false) →
      (findOneAndUpdateList q upd u d db).get? i = some (upd r)
  | [], i, r, h, _, _ => by simp at h
  | x :: xs, 0, r, h, hq, _ => by
    simp only [List.get?] at h
    cases h
    simp [findOneAndUpdateList, hq]
  | x :: xs, i + 1, r, h, hq, hj => by
    have hx : q x = false := hj 0 x (Nat.succ_pos i) rfl
    simp only [findOneAndUpdateList, hx, Bool.false_eq_true, if_false,
      List.get?]
    exact findOneAndUpdateList_first_match q upd u d xs i r h hq
      (fun j rj hlt hg => hj (j + 1) rj (Nat.succ_lt_succ hlt) hg)

theorem findOneAndUpdateList_mem {α : Type} (q : α → Bool) (upd : α → α)
    (u : Bool) (d : α) :
    ∀ (db : List α) (x : α), x ∈ findOneAndUpdateList q upd u d db →
      x ∈ db ∨ (∃ r, r ∈ db ∧ x = upd r) ∨ x = d
  | [], x, h => by
    cases u <;> simp [findOneAndUpdateList] at h
    exact Or.inr (Or.inr h)
  | r :: rs, x, h => by
    by_cases hq : q r = true
    · simp only [findOneAndUpdateList, hq, if_true] at h
      rcases List.mem_cons.mp h with rfl | hmem
      · exact Or.inr (Or.inl ⟨r, List.mem_cons_self r rs, rfl⟩)
      · exact Or.inl (List.mem_cons_of_mem r hmem)
    · simp only [findOneAndUpdateList, hq, if_false] at h
      rcases List.mem_cons.mp h with rfl | hmem
      · exact Or.inl (List.mem_cons_self x rs)
      · rcases findOneAndUpdateList_mem q upd u d rs x hmem with h1 | ⟨rr, hrr, hx⟩ | h1
        · exact Or.inl (List.mem_cons_of_mem r h1)
        · exact Or.inr (Or.inl ⟨rr, List.mem_cons_of_mem r hrr, hx⟩)
        · exact Or.inr (Or.inr h1)

theorem applyMetaItem_status (uf : UpdateFields) (it : MetaItem) :
    (applyMetaItem uf it).status = uf.status := by
  unfold applyMetaItem
  repeat' split
  all_goals rfl

theorem applyMetaItem_packageDescription (uf : UpdateFields) (it : MetaItem) :
    (applyMetaItem uf it).packageDescription = uf.packageDescription := by
  unfold applyMetaItem
  repeat' split
  all_goals rfl

theorem applyMetadata_status (items : List MetaItem) :
    ∀ uf : UpdateFields, (applyMetadata uf items).status = uf.status := by
  induction items with
  | nil => intro uf; rfl
  | cons it items ih =>
    intro uf
    rw [applyMetadata, List.foldl_cons, ← applyMetadata, ih,
      applyMetaItem_status]

theorem applyMetadata_packageDescription (items : List MetaItem) :
    ∀ uf : UpdateFields,
      (applyMetadata uf items).packageDescription = uf.packageDescription := by
  induction items with
  | nil => intro uf; rfl
  | cons it items ih =>
    intro uf
    rw [applyMetadata, List.foldl_cons, ← applyMetadata, ih,
      applyMetaItem_packageDescription]

theorem mpesaCallbackUpdateFields_status (cb : StkCallback) :
    (mpesaCallbackUpdateFields cb).status =
      some (if cb.resultCode == 0 then PayStatus.Completed
        else if cb.resultCode == 1032 then PayStatus.Cancelled
        else PayStatus.Failed) := by
  unfold mpesaCallbackUpdateFields
  by_cases h0 : cb.resultCode == 0
  · simp only [h0, if_true]
    cases cb.callbackMetadata with
    | none => rfl
    | some items => simp [applyMetadata_status]
  · simp only [Bool.not_eq_true] at h0
    simp [h0]

theorem callbackUpdateFields_packageDescription (now : Int)
    (cb : StkCallback) :
    (callbackUpdateFields now cb).packageDescription = none := by
  unfold callbackUpdateFields
  cases cb.callbackMetadata with
  | none => rfl
  | some items => simp [applyMetadata_packageDescription]

theorem p0ApplyMetaItem_status (r : P0Record) (it : MetaItem) :
    (p0ApplyMetaItem r it).status = r.status := by
  unfold p0ApplyMetaItem
  repeat' split
  all_goals rfl

theorem p0ApplyMetaItem_checkoutRequestID (r : P0Record) (it : MetaItem) :
    (p0ApplyMetaItem r it).checkoutRequestID = r.checkoutRequestID := by
  unfold p0ApplyMetaItem
  repeat' split
  all_goals rfl

theorem p0Foldl_status (items : List MetaItem) :
    ∀ r : P0Record, (items.foldl p0ApplyMetaItem r).status = r.status := by
  induction items with
  | nil => intro r; rfl
  | cons it items ih =>
    intro r
    rw [List.foldl_cons, ih, p0ApplyMetaItem_status]

theorem p0Foldl_checkoutRequestID (items : List MetaItem) :
    ∀ r : P0Record,
      (items.foldl p0ApplyMetaItem r).checkoutRequestID =
        r.checkoutRequestID := by
  induction items with
  | nil => intro r; rfl
  | cons it items ih =>
    intro r
    rw [List.foldl_cons, ih, p0ApplyMetaItem_checkoutRequestID]

theorem p0NewPayment_completed {cb : StkCallback} (h : cb.resultCode = 0) :
    (p0NewPayment cb).status = "Completed" ∧
      (p0NewPayment cb).checkoutRequestID = cb.checkoutRequestID := by
  unfold p0NewPayment
  have h0 : (cb.resultCode == 0) = true := by simp [h]
  simp only [h0, if_true]
  cases cb.callbackMetadata with
  | none => exact ⟨rfl, rfl⟩
  | some items => simp [p0Foldl_status, p0Foldl_checkoutRequestID]

theorem foldl_laterCreated_mem :
    ∀ (rs : List PaymentRecord) (a : PaymentRecord),
      rs.foldl laterCreated a = a ∨ rs.foldl laterCreated a ∈ rs
  | [], a => Or.inl rfl
  | b :: rs, a => by
    rw [List.foldl_cons]
    rcases foldl_laterCreated_mem rs (laterCreated a b) with h | h
    · rw [h]
      unfold laterCreated
      split
      · exact Or.inr (List.mem_cons_self b rs)
      · exact Or.inl rfl
    · exact Or.inr (List.mem_cons_of_mem b h)

theorem laterCreated_left_le (a b : PaymentRecord) :
    a.createdAt ≤ (laterCreated a b).createdAt := by
  unfold laterCreated
  split <;> omega

theorem laterCreated_right_le (a b : PaymentRecord) :
    b.createdAt ≤ (laterCreated a b).createdAt := by
  unfold laterCreated
  split <;> omega

theorem foldl_laterCreated_ge :
    ∀ (rs : List PaymentRecord) (a : PaymentRecord),
      a.createdAt ≤ (rs.foldl laterCreated a).createdAt ∧
        ∀ x ∈ rs, x.createdAt ≤ (rs.foldl laterCreated a).createdAt
  | [], a => ⟨le_refl _, by simp⟩
  | b :: rs, a => by
    rw [List.foldl_cons]
    obtain ⟨ih1, ih2⟩ := foldl_laterCreated_ge rs (laterCreated a b)
    refine ⟨le_trans (laterCreated_left_le a b) ih1, ?_⟩
    intro x hx
    rcases List.mem_cons.mp hx with rfl | hx
    · exact le_trans (laterCreated_right_le a x) ih1
    · exact ih2 x hx

theorem mostRecentCompleted_spec (db : List PaymentRecord) (p : String)
    (r : PaymentRecord) (h : mostRecentCompleted db p = some r) :
    r ∈ db ∧ r.phoneNumber = some p ∧ r.status = PayStatus.Completed ∧
      ∀ x ∈ db, x.phoneNumber = some p → x.status = PayStatus.Completed →
        x.createdAt ≤ r.createdAt := by
  unfold mostRecentCompleted at h
  cases hf : db.filter (completedFor p) with
  | nil => rw [hf] at h; exact absurd h (by simp)
  | cons a rs =>
    rw [hf] at h
    simp only [Option.some.injEq] at h
    subst h
    have hmem : rs.foldl laterCreated a ∈ a :: rs := by
      rcases foldl_laterCreated_mem rs a with h1 | h1
      · rw [h1]; exact List.mem_cons_self a rs
      · exact List.mem_cons_of_mem a h1
    have hmemf : rs.foldl laterCreated a ∈ db.filter (completedFor p) := by
      rw [hf]; exact hmem
    obtain ⟨hdb, hcf⟩ := List.mem_filter.mp hmemf
    have hcf2 : (rs.foldl laterCreated a).phoneNumber = some p ∧
        (rs.foldl laterCreated a).status = PayStatus.Completed := by
      simpa [completedFor] using hcf
    refine ⟨hdb, hcf2.1, hcf2.2, ?_⟩
    intro x hx hxp hxs
    have hxf : x ∈ a :: rs := by
      rw [← hf]
      exact List.mem_filter.mpr ⟨hx, by simp [completedFor, hxp, hxs]⟩
    rcases List.mem_cons.mp hxf with rfl | hxrs
    · exact (foldl_laterCreated_ge rs x).1
    · exact (foldl_laterCreated_ge rs a).2 x hxrs

/-- Confirmation with a correlation key matching no stored attempt, used for
claims about unknown-key handling. -/
def cbC1 : StkCallback :=
  { merchantRequestID := "MR-UNKNOWN", checkoutRequestID := "CO-UNKNOWN"
    resultCode := 0
    callbackMetadata := some [⟨"PhoneNumber", MetaValue.str "254712345678"⟩] }

/-- C1 counterexample: `unnamed/part_000` processes a successful confirmation
whose key matches nothing in an empty store and ends up with a record keyed
by that unknown `CheckoutRequestID` in status `Completed`, so the handler
does not discard unknown-key confirmations. -/
theorem c1_counterexample :
    (processMpesaCallbackP0 [] cbC1).any
      (fun r => r.checkoutRequestID == "CO-UNKNOWN" && r.status == "Completed")
      = true := by decide

/-- C1 (amended): the `/api/callback` handler (`upsert: false`) leaves the
store unchanged when no record matches the correlation key; the
`unnamed/part_000` handler instead appends a freshly created record that, for
`resultCode` 0, is `Completed` and carries the unknown checkout ID. -/
theorem c1_theorem :
    (∀ (now : Int) (db : List PaymentRecord) (cb : StkCallback),
      (∀ r ∈ db, matchesKey cb r = false) → processCallbackV2 now db cb = db)
    ∧ (∀ (db : List P0Record) (cb : StkCallback),
      (∀ r ∈ db, p0MatchesKey cb r = false) → cb.resultCode = 0 →
        processMpesaCallbackP0 db cb = db ++ [p0NewPayment cb]
        ∧ (p0NewPayment cb).status = "Completed"
        ∧ (p0NewPayment cb).checkoutRequestID = cb.checkoutRequestID) := by
  constructor
  · intro now db cb h
    unfold processCallbackV2
    split
    · exact findOneAndUpdateList_no_match _ _ _ db h
    · rfl
  · intro db cb h h0
    obtain ⟨hs, hc⟩ := p0NewPayment_completed h0
    exact ⟨findOneAndUpdateList_no_match_upsert _ _ _ db h, hs, hc⟩

/-- C1 witness: both halves at concrete inputs (empty stores). -/
theorem c1_witness :
    processCallbackV2 0 [] cbC1 = []
    ∧ processMpesaCallbackP0 [] cbC1 = [p0NewPayment cbC1] := by
  refine ⟨c1_theorem.1 0 [] cbC1 (by simp), ?_⟩
  have h := (c1_theorem.2 [] cbC1 (by simp) rfl).1
  simpa using h

/-- A payment attempt already in the terminal state `Completed`. -/
def recC2 : PaymentRecord :=
  { merchantRequestID := some "MR-2", checkoutRequestID := some "CO-2"
    phoneNumber := some "254712345678", status := PayStatus.Completed
    mpesaReceiptNumber := some "RCPT-2", expiresAt := some 1000, createdAt := 0 }

/-- A later failed confirmation for the same correlation key. -/
def cbC2 : StkCallback :=
  { merchantRequestID := "MR-2", checkoutRequestID := "CO-2", resultCode := 1 }

/-- C2 counterexample: a record already terminal (`Completed`) is not left
unchanged by a further confirmation - `/api/mpesa_callback` overwrites its
status to `Failed`. -/
theorem c2_counterexample :
    recC2.status = PayStatus.Completed
    ∧ (processMpesaCallbackV3 5 [recC2] cbC2).map PaymentRecord.status =
        [PayStatus.Failed] := by decide

/-- C2 (amended): the `findOneAndUpdate` query matches on correlation key
only, with no status predicate, so the update fields are applied to the first
matching record whatever its current status - terminal states are not
protected. -/
theorem c2_theorem (now : Int) (db : List PaymentRecord) (cb : StkCallback)
    (i : Nat) (r : PaymentRecord) (hi : db.get? i = some r)
    (hq : matchesKey cb r = true)
    (hj : ∀ j rj, j < i → db.get? j = some rj → matchesKey cb rj = false) :
    (processMpesaCallbackV3 now db cb).get? i =
      some (applySet (mpesaCallbackUpdateFields cb) r) := by
  unfold processMpesaCallbackV3
  exact findOneAndUpdateList_first_match _ _ _ _ db i r hi hq hj

/-- C2 witness: the amended statement applied to the terminal record. -/
theorem c2_witness :
    matchesKey cbC2 recC2 = true
    ∧ (processMpesaCallbackV3 5 [recC2] cbC2).get? 0 =
        some (applySet (mpesaCallbackUpdateFields cbC2) recC2) :=
  ⟨by decide, c2_theorem 5 [recC2] cbC2 0 recC2 rfl (by decide)
    (fun j rj hj _ => absurd hj (Nat.not_lt_zero j))⟩

/-- An initiated attempt whose plan is the 7-hour tier. -/
def recC3 : PaymentRecord :=
  { merchantRequestID := some "MR-3", checkoutRequestID := some "CO-3"
    phoneNumber := some "254712345678"
    packageDescription := some "7-Hour Plan"
    status := PayStatus.Processing, createdAt := 0 }

/-- A successful confirmation for that attempt. -/
def cbC3 : StkCallback :=
  { merchantRequestID := "MR-3", checkoutRequestID := "CO-3", resultCode := 0
    callbackMetadata := some [⟨"Amount", MetaValue.num 100⟩,
      ⟨"MpesaReceiptNumber", MetaValue.str "RCPT-3"⟩,
      ⟨"PhoneNumber", MetaValue.str "254712345678"⟩,
      ⟨"TransactionDate", MetaValue.str "20240101120000"⟩] }

/-- C3 failing input: the record's plan is `"7-Hour Plan"` and the
`durationHours` mapping itself sends that label to 7, yet the handler stores
`expiresAt = now + 1 hour` (3600000 ms at `now = 0`), because line 1091 reads
the duration source from `updateFields.packageDescription`, which no code
path ever assigns, instead of from the stored record. -/
theorem c3_theorem :
    recC3.packageDescription = some "7-Hour Plan"
    ∧ durationHours "7-Hour Plan" = 7
    ∧ (processCallbackV2 0 [recC3] cbC3).map PaymentRecord.status =
        [PayStatus.Completed]
    ∧ (processCallbackV2 0 [recC3] cbC3).map PaymentRecord.expiresAt =
        [some 3600000] := by decide

/-- A processing attempt used for the result-code mapping claims. -/
def recC4 : PaymentRecord :=
  { merchantRequestID := some "MR-4", checkoutRequestID := some "CO-4"
    phoneNumber := some "254701000000", status := PayStatus.Processing
    createdAt := 0 }

/-- A cancellation confirmation (code 1032) for that attempt. -/
def cbC4 : StkCallback :=
  { merchantRequestID := "MR-4", checkoutRequestID := "CO-4", resultCode := 1032 }

/-- A generic failure confirmation (code 1) for that attempt. -/
def cbC4b : StkCallback :=
  { merchantRequestID := "MR-4", checkoutRequestID := "CO-4", resultCode := 1 }

/-- C4 counterexample: `/api/callback` performs no update at all for a
non-zero result code, so the matched record stays `Processing` - it is not
driven to a terminal `Failed`/`Cancelled`/`Timeout` state. -/
theorem c4_counterexample :
    recC4.status = PayStatus.Processing
    ∧ processCallbackV2 9 [recC4] cbC4b = [recC4] := by decide

/-- C4 (amended): `/api/mpesa_callback` maps the result code of a matched
confirmation to `Completed` (0), `Cancelled` (1032) or `Failed` (anything
else) - it never produces `Timeout`, there being no timeout code - while
`/api/callback` leaves the store untouched for every non-zero result code. -/
theorem c4_theorem :
    (∀ (now : Int) (db : List PaymentRecord) (cb : StkCallback) (i : Nat)
      (r : PaymentRecord), db.get? i = some r → matchesKey cb r = true →
      (∀ j rj, j < i → db.get? j = some rj → matchesKey cb rj = false) →
      ((processMpesaCallbackV3 now db cb).get? i).map PaymentRecord.status =
        some (if cb.resultCode = 0 then PayStatus.Completed
          else if cb.resultCode = 1032 then PayStatus.Cancelled
          else PayStatus.Failed))
    ∧ (∀ (now : Int) (db : List PaymentRecord) (cb : StkCallback),
        cb.resultCode ≠ 0 → processCallbackV2 now db cb = db)
    ∧ (∀ (now : Int) (db : List PaymentRecord) (cb : StkCallback)
        (x : PaymentRecord), x ∈ processMpesaCallbackV3 now db cb →
        x.status = PayStatus.Timeout →
        ∃ r, r ∈ db ∧ r.status = PayStatus.Timeout) := by
  have hstat : ∀ (cb : StkCallback) (r : PaymentRecord),
      (applySet (mpesaCallbackUpdateFields cb) r).status =
        (if cb.resultCode = 0 then PayStatus.Completed
          else if cb.resultCode = 1032 then PayStatus.Cancelled
          else PayStatus.Failed) := by
    intro cb r
    show (mpesaCallbackUpdateFields cb).status.getD r.status = _
    rw [mpesaCallbackUpdateFields_status]
    by_cases h0 : cb.resultCode = 0 <;> by_cases h32 : cb.resultCode = 1032 <;>
      simp [h0, h32]
  refine ⟨?_, ?_, ?_⟩
  · intro now db cb i r hi hq hj
    have h := findOneAndUpdateList_first_match (matchesKey cb)
      (applySet (mpesaCallbackUpdateFields cb)) true
      (applySet (mpesaCallbackUpdateFields cb) { createdAt := now }) db i r hi hq hj
    simp only [processMpesaCallbackV3, h, Option.map_some']
    rw [hstat]
  · intro now db cb h
    unfold processCallbackV2
    split
    · rename_i hc
      exact absurd (by simpa using hc) h
    · rfl
  · intro now db cb x hx hts
    have hx2 : x ∈ findOneAndUpdateList (matchesKey cb)
        (applySet (mpesaCallbackUpdateFields cb)) true
        (applySet (mpesaCallbackUpdateFields cb) { createdAt := now }) db := by
      simpa [processMpesaCallbackV3] using hx
    rcases findOneAndUpdateList_mem _ _ _ _ db x hx2 with h1 | ⟨r, hr, rfl⟩ | h1
    · exact ⟨x, h1, hts⟩
    · rw [hstat] at hts
      split at hts
      · exact absurd hts (by decide)
      · split at hts <;> exact absurd hts (by decide)
    · rw [h1, hstat] at hts
      split at hts
      · exact absurd hts (by decide)
      · split at hts <;> exact absurd hts (by decide)

/-- C4 witness: the mapping applied to a concrete cancellation (code 1032)
delivered for the stored processing attempt. -/
theorem c4_witness :
    ((processMpesaCallbackV3 0 [recC4] cbC4).get? 0).map PaymentRecord.status =
      some PayStatus.Cancelled := by
  have h := c4_theorem.1 0 [recC4] cbC4 0 recC4 rfl (by decide)
    (fun j rj hj _ => absurd hj (Nat.not_lt_zero j))
  simpa using h

/-- C5 counterexample: the claim requires a leading `+` to be stripped and
`+254712345678` to be accepted as `254712345678`, but all three normalizer
variants reject it - variant 1 because its length precheck (which counts the
`+`) rejects 13-character input, variants 2 and 3 because their regexes admit
no `+` at all. -/
theorem c5_counterexample :
    normalizePhoneNumber1 "+254712345678" = none
    ∧ normalizePhoneNumber2 "+254712345678" = none
    ∧ normalizePhoneNumber3 "+254712345678" = none := by decide

/-- C5 (amended): variant 2 strips surrounding whitespace only; on the
trimmed text it maps `0[17]` plus 8 digits to the `254` form, returns
`254[17]` plus 8 digits unchanged, rejects everything else, and in particular
rejects every input whose trimmed form starts with `+`. -/
theorem c5_theorem :
    (∀ l : List Char, matches07 l = true →
      normalizePhoneNumber2 (String.mk l) =
        some (String.mk ('2' :: '5' :: '4' :: l.tail)))
    ∧ (∀ l : List Char, matches254 l = true →
      normalizePhoneNumber2 (String.mk l) = some (String.mk l))
    ∧ (∀ s : String, matches07 (jsTrim s.data) = false →
      matches254 (jsTrim s.data) = false → normalizePhoneNumber2 s = none)
    ∧ (∀ l : List Char,
      normalizePhoneNumber2 (String.mk ('+' :: l)) = none) := by
  refine ⟨?_, ?_, ?_, ?_⟩
  · intro l h
    obtain ⟨c1, rest, hl, _, _, _⟩ := matches07_shape h
    show (norm2chars (jsTrim l)).map String.mk = _
    rw [jsTrim_of_no_ws (matches07_no_ws h)]
    unfold norm2chars
    rw [if_pos (show (kenyanPhoneTest l) = true by simp [kenyanPhoneTest, h]),
      if_pos (show (l.head? == some '0') = true by simp [hl, List.head?])]
    rfl
  · intro l h
    show (norm2chars (jsTrim l)).map String.mk = _
    rw [jsTrim_of_no_ws (matches254_no_ws h), norm2chars_of_matches254 h]
    rfl
  · intro s h1 h2
    simp [normalizePhoneNumber2, norm2chars, kenyanPhoneTest, h1, h2]
  · intro l
    show (norm2chars (jsTrim ('+' :: l))).map String.mk = none
    rw [jsTrim_cons_head (by decide) l]
    have h07 : matches07
        ('+' :: (l.reverse.dropWhile Char.isWhitespace).reverse) = false := by
      simp [matches07, List.head?]
    have h254 : matches254
        ('+' :: (l.reverse.dropWhile Char.isWhitespace).reverse) = false := by
      simp [matches254, List.head?]
    simp [norm2chars, kenyanPhoneTest, h07, h254]

/-- C5 witness: the accepted local form, at a concrete number. -/
theorem c5_witness :
    matches07 "0712345678".data = true
    ∧ normalizePhoneNumber2 (String.mk "0712345678".data) =
        some (String.mk ('2' :: '5' :: '4' :: "0712345678".data.tail)) :=
  ⟨by decide, c5_theorem.1 "0712345678".data (by decide)⟩

/-- C6 counterexample: normalizer variant 3 accepts `"0712345678"` with
output `"254712345678"` but rejects that very output (it accepts only
`0`-prefixed input), so its claimed identities fail and renormalizing its
output does not reproduce it. -/
theorem c6_counterexample :
    normalizePhoneNumber3 "0712345678" = some "254712345678"
    ∧ normalizePhoneNumber3 "254712345678" = none := by decide

/-- C6 (amended): normalizer variant 2 is idempotent - whenever it succeeds,
running it on its own output returns that output unchanged. (Variant 3 is
not: it rejects the canonical `254` form it produces.) -/
theorem c6_theorem : ∀ s y : String, normalizePhoneNumber2 s = some y →
    normalizePhoneNumber2 y = some y := by
  intro s y h
  unfold normalizePhoneNumber2 at h
  cases hn : norm2chars (jsTrim s.data) with
  | none => rw [hn] at h; exact absurd h (by simp)
  | some ld =>
    rw [hn] at h
    simp only [Option.map_some', Option.some.injEq] at h
    subst h
    have h254 : matches254 ld = true := by
      unfold norm2chars at hn
      by_cases hk : (kenyanPhoneTest (jsTrim s.data)) = true
      · rw [if_pos hk] at hn
        by_cases hh : ((jsTrim s.data).head? == some '0') = true
        · rw [if_pos hh] at hn
          simp only [Option.some.injEq] at hn
          have h07 : matches07 (jsTrim s.data) = true := by
            have hk2 : matches07 (jsTrim s.data) = true ∨
                matches254 (jsTrim s.data) = true := by
              simpa [kenyanPhoneTest] using hk
            rcases hk2 with h | h
            · exact h
            · exfalso
              obtain ⟨c3, rest, hl, _, _, _⟩ := matches254_shape h
              rw [hl] at hh
              simp [List.head?] at hh
          rw [← hn]
          exact matches254_of_matches07 h07
        · rw [if_neg hh] at hn
          simp only [Option.some.injEq] at hn
          subst hn
          have hk2 : matches07 (jsTrim s.data) = true ∨
              matches254 (jsTrim s.data) = true := by
            simpa [kenyanPhoneTest] using hk
          rcases hk2 with h | h
          · exfalso
            obtain ⟨c1, rest, hl, _, _, _⟩ := matches07_shape h
            rw [hl] at hh
            simp [List.head?] at hh
          · exact h
      · rw [if_neg hk] at hn
        exact absurd hn (by simp)
    show (norm2chars (jsTrim ld)).map String.mk = some (String.mk ld)
    rw [jsTrim_of_no_ws (matches254_no_ws h254), norm2chars_of_matches254 h254]
    rfl

/-- C6 witness: both concrete identities of the claim hold for variant 2,
the second obtained by renormalizing the first's output. -/
theorem c6_witness :
    normalizePhoneNumber2 "0712345678" = some "254712345678"
    ∧ normalizePhoneNumber2 "254712345678" = some "254712345678" :=
  ⟨by decide, c6_theorem "0712345678" "254712345678" (by decide)⟩

/-- C7: the entitlement query normalizes its input and answers from the most
recently created `Completed` attempt only: none found means `paid: false`; a
found unexpired attempt yields the paid response carrying that attempt's
plan, bandwidth class, expiry and receipt; a found expired attempt yields the
expired `paid: false` answer. The selected attempt is a `Completed` attempt
of that number whose creation time dominates every other such attempt, so
earlier purchases are superseded, never summed. (Stated for selected records
carrying `packageDescription` and `expiresAt`, which every attempt written by
the initiation-then-`/api/callback` flow has.) -/
theorem c7_theorem (now : Int) (db : List PaymentRecord) (ph p : String)
    (hph : ph ≠ "") (hn : normalizePhoneNumber2 ph = some p) :
    (mostRecentCompleted db p = none →
      mikrotikCheckPayment now db (some ph) = MikrotikResult.notPaid)
    ∧ (∀ (r : PaymentRecord) (desc : String) (e : Int),
        mostRecentCompleted db p = some r →
        r.packageDescription = some desc → r.expiresAt = some e →
        (now < e → mikrotikCheckPayment now db (some ph) =
          MikrotikResult.paid r.amount desc (bandwidthOf desc) r.createdAt e
            r.mpesaReceiptNumber)
        ∧ (¬ now < e →
          mikrotikCheckPayment now db (some ph) = MikrotikResult.expired))
    ∧ (∀ r : PaymentRecord, mostRecentCompleted db p = some r →
        r ∈ db ∧ r.phoneNumber = some p ∧ r.status = PayStatus.Completed ∧
          ∀ x ∈ db, x.phoneNumber = some p → x.status = PayStatus.Completed →
            x.createdAt ≤ r.createdAt) := by
  have hbe : (ph == "") = false := beq_eq_false_iff_ne.mpr hph
  refine ⟨?_, ?_, fun r hr => mostRecentCompleted_spec db p r hr⟩
  · intro hnone
    simp [mikrotikCheckPayment, hbe, hn, hnone]
  · intro r desc e hr hd he
    constructor
    · intro hlt
      simp [mikrotikCheckPayment, hbe, hn, hr, hd, he, hlt]
    · intro hge
      simp [mikrotikCheckPayment, hbe, hn, hr, hd, he, hge]

/-- Older completed attempt of the queried number, already expired. -/
def recC7old : PaymentRecord :=
  { merchantRequestID := some "MR-7A", checkoutRequestID := some "CO-7A"
    phoneNumber := some "254712345678", status := PayStatus.Completed
    packageDescription := some "1-Hour Basic", expiresAt := some 5
    createdAt := 1, amount := some 10, mpesaReceiptNumber := some "R-7A" }

/-- Newer completed attempt of the same number, still valid. -/
def recC7new : PaymentRecord :=
  { merchantRequestID := some "MR-7B", checkoutRequestID := some "CO-7B"
    phoneNumber := some "254712345678", status := PayStatus.Completed
    packageDescription := some "3-Hour Unlimited", expiresAt := some 100
    createdAt := 10, amount := some 20, mpesaReceiptNumber := some "R-7B" }

/-- C7 witness: with an expired older attempt and a valid newer one, the
query (with the raw local-format number) answers from the newer attempt. -/
theorem c7_witness :
    mikrotikCheckPayment 50 [recC7old, recC7new] (some "0712345678") =
      MikrotikResult.paid (some 20) "3-Hour Unlimited" "unlimited" 10 100
        (some "R-7B") :=
  ((c7_theorem 50 [recC7old, recC7new] "0712345678" "254712345678"
    (by decide) (by decide)).2.1 recC7new "3-Hour Unlimited" 100
    (by decide) rfl rfl).1 (by decide)

/-- Webhook body used only to drive the part_000 trace counterexample. -/
def cbC8 : StkCallback :=
  { merchantRequestID := "MR-8", checkoutRequestID := "CO-8", resultCode := 0 }

/-- C8 counterexample: `unnamed/part_000`'s handler answers a structurally
invalid envelope with a 400 error rather than the fixed 200 acknowledgment,
and for a valid envelope its first observable event is a database access, not
the acknowledgment - so the acknowledgment is neither unconditional nor sent
before database work. -/
theorem c8_counterexample :
    mpesaCallbackP0Trace none true =
      [WebEvent.respond 400 "Invalid callback data."]
    ∧ (mpesaCallbackP0Trace (some cbC8) true).head? = some WebEvent.dbAccess
    ∧ mpesaCallbackP0Trace (some cbC8) false =
        [WebEvent.dbAccess,
          WebEvent.respond 500
            "Internal server error during callback processing."] := by decide

/-- C8 (amended): for the `server.js` handlers `/api/callback` and
`/api/mpesa_callback` the claim holds - whatever the body and whether or not
the store fails, the first event of the trace is the fixed 200
acknowledgment and it is the only response ever sent, all Phase B failures
being swallowed; `unnamed/part_000` instead responds only after its database
work and propagates errors as 400/500 responses. -/
theorem c8_theorem : ∀ (body : Option StkCallback) (storeOk : Bool),
    (callbackV2Trace body storeOk).head? =
      some (WebEvent.respond 200 mpesaAckBody)
    ∧ respondEvents (callbackV2Trace body storeOk) =
        [WebEvent.respond 200 mpesaAckBody]
    ∧ (mpesaCallbackV3Trace body storeOk).head? =
        some (WebEvent.respond 200 mpesaAckBody)
    ∧ respondEvents (mpesaCallbackV3Trace body storeOk) =
        [WebEvent.respond 200 mpesaAckBody] := by
  intro body storeOk
  cases body <;> cases storeOk <;>
    simp [callbackV2Trace, mpesaCallbackV3Trace, respondEvents, List.filter]

/-- C9: querying the status of a checkout ID with no stored record is
answered 200 with `success: true` and status `Processing` - a non-error
"still processing" response, not a 404 or failure. -/
theorem c9_theorem (db : List PaymentRecord) (cid : String) (hcid : cid ≠ "")
    (h : ∀ r ∈ db, r.checkoutRequestID ≠ some cid) :
    checkPaymentStatus db cid = Except.ok
      { httpStatus := 200, success := true, status := "Processing"
        message := "Payment record not found. Awaiting callback." } := by
  have hbe : (cid == "") = false := beq_eq_false_iff_ne.mpr hcid
  have hfind : db.find? (fun r => r.checkoutRequestID == some cid) = none := by
    apply List.find?_eq_none.mpr
    intro r hr hc
    exact h r hr (by simpa using hc)
  simp [checkPaymentStatus, hbe, hfind]

/-- C9 witness: the empty store at a concrete checkout ID. -/
theorem c9_witness :
    checkPaymentStatus [] "CO-NONE" = Except.ok
      { httpStatus := 200, success := true, status := "Processing"
        message := "Payment record not found. Awaiting callback." } :=
  c9_theorem [] "CO-NONE" (by decide) (by simp)

/-- C10: when the selected most-recent `Completed` record has no
`packageDescription`, the entitlement query dereferences
`payment.packageDescription.includes` and throws; the centralized middleware
turns that non-`APIError` exception into the 500 internal-error envelope.
The `/api/callback` webhook update - the only confirmation writer of this
variant - never sets `packageDescription`, so records completed without the
initiation write lack it. -/
theorem c10_theorem :
    (∀ (now : Int) (db : List PaymentRecord) (ph p : String)
      (r : PaymentRecord), ph ≠ "" → normalizePhoneNumber2 ph = some p →
      mostRecentCompleted db p = some r → r.packageDescription = none →
      mikrotikCheckPayment now db (some ph) = MikrotikResult.thrown)
    ∧ (∀ m : String, errorMiddleware (ThrownError.typeError m) =
        genericEnvelope)
    ∧ (∀ (now : Int) (cb : StkCallback),
        (callbackUpdateFields now cb).packageDescription = none) := by
  refine ⟨?_, fun m => rfl, callbackUpdateFields_packageDescription⟩
  intro now db ph p r hph hn hr hpd
  have hbe : (ph == "") = false := beq_eq_false_iff_ne.mpr hph
  simp [mikrotikCheckPayment, hbe, hn, hr, hpd]

/-- A completed record with no `packageDescription`, as the webhook-only
write path leaves it. -/
def recC10 : PaymentRecord :=
  { merchantRequestID := some "MR-10", checkoutRequestID := some "CO-10"
    phoneNumber := some "254701234567", status := PayStatus.Completed
    expiresAt := some 99999, createdAt := 3 }

/-- C10 witness: the crash at a concrete store and query. -/
theorem c10_witness :
    mikrotikCheckPayment 0 [recC10] (some "0701234567") =
      MikrotikResult.thrown :=
  c10_theorem.1 0 [recC10] "0701234567" "254701234567" recC10 (by decide)
    (by decide) (by decide) rfl
